import Mathlib

/-!
Verification of the godot-export build pipeline.

Shallow embedding of the TypeScript sources:
* `src/src/godot.ts` — toolchain provisioning, export-flag derivation,
  executable discovery, preset loading, editor settings;
* `src/src/file.ts` and the packager variant in `src/unnamed/part_000` —
  artifact packaging (`zipBuildResult`, `assembleSteamContentsFor`) and
  relocation (`moveBuildsToExportDirectory`);
* `src/unnamed/part_000` (first section) — the constants module.

Strings model JS strings; filesystem trees, file maps and command traces are
explicit data; external process invocations are recorded as trace events.
-/

/-! ### Path helpers (Node `path` module, as used by the sources) -/

/-- `path.join(a, b)` for a simple segment `b`: concatenation with a slash. -/
def pathJoin (a b : String) : String := a ++ "/" ++ b

/-- Split a character list at every slash (like `s.split('/')`). -/
def splitOnSlash : List Char → List (List Char)
  | [] => [[]]
  | c :: cs =>
    match splitOnSlash cs with
    | [] => [[]]
    | g :: gs => if c == '/' then [] :: g :: gs else (c :: g) :: gs

/-- The slash-separated components of a path. -/
def pathParts (s : String) : List String := (splitOnSlash s.data).map (fun l => ⟨l⟩)

/-- `path.basename`: the last path component, ignoring trailing slashes. -/
def basename (s : String) : String :=
  match (pathParts s).reverse.dropWhile (fun p => p == "") with
  | [] => s
  | x :: _ => x

/-- Join components back with slashes. -/
def joinParts : List String → String
  | [] => ""
  | [x] => x
  | x :: xs => x ++ "/" ++ joinParts xs

/-- `path.dirname`: everything before the last slash, `"."` when there is none. -/
def dirname (s : String) : String :=
  match pathParts s with
  | [] => "."
  | [_] => "."
  | parts => joinParts parts.dropLast

/-- `path.extname`: the suffix of the basename starting at its last dot,
`""` when there is no dot or the only dot is the leading character. -/
def extname (p : String) : String :=
  let cs := (basename p).data
  let afterDot := cs.reverse.takeWhile (fun c => c ≠ '.')
  if afterDot.length == cs.length then ""
  else if cs.length - afterDot.length - 1 == 0 then ""
  else ⟨'.' :: afterDot.reverse⟩

/-- `path.resolve` turns a path into an absolute path against the process CWD;
the embedding tracks paths symbolically, so resolution is the identity. -/
def pathResolve (p : String) : String := p

/-- JS `String.prototype.toLowerCase` (ASCII letters, as used on platform names). -/
def strToLower (s : String) : String := ⟨s.data.map Char.toLower⟩

/-- Suffix test on the underlying character lists. -/
def strEndsWith (s suf : String) : Bool := suf.data.isSuffixOf s.data

/-- JS `String.prototype.replace` with a plain-string pattern: replace the
first occurrence only (an empty pattern matches at the start). -/
def listReplaceFirst (pat rep : List Char) : List Char → List Char
  | [] => if pat == [] then rep else []
  | c :: cs =>
    if pat.isPrefixOf (c :: cs) then rep ++ (c :: cs).drop pat.length
    else c :: listReplaceFirst pat rep cs

/-- JS `s.replace(pat, rep)` for string patterns (first occurrence). -/
def replaceFirst (s pat rep : String) : String := ⟨listReplaceFirst pat.data rep.data s.data⟩

/-! ### The `sanitize-filename` npm package

`sanitize(input)` applies, in order: removal of illegal characters
`/?<>\:*|"`, removal of control characters, replacement of an all-dots name,
replacement of a Windows-reserved name, removal of trailing dots/spaces,
and UTF-8 truncation to 255 bytes. Replacement string is `''`. -/

def illegalFilenameChars : List Char := ['/', '?', '<', '>', '\\', ':', '*', '|', '"']

def isControlChar (c : Char) : Bool :=
  c.toNat ≤ 0x1f || (0x80 ≤ c.toNat && c.toNat ≤ 0x9f)

def windowsReservedNames : List String :=
  ["con", "prn", "aux", "nul",
   "com0", "com1", "com2", "com3", "com4", "com5", "com6", "com7", "com8", "com9",
   "lpt0", "lpt1", "lpt2", "lpt3", "lpt4", "lpt5", "lpt6", "lpt7", "lpt8", "lpt9"]

/-- The regex `^(con|prn|aux|nul|com[0-9]|lpt[0-9])(\..*)?$` with the `i` flag. -/
def isWindowsReserved (s : String) : Bool :=
  let l := (strToLower s).data
  windowsReservedNames.any (fun r => l == r.data || (r.data ++ ['.']).isPrefixOf l)

/-- UTF-8 byte truncation that never splits a character (`truncate-utf8-bytes`). -/
def utf8Truncate : Nat → List Char → List Char
  | _, [] => []
  | n, c :: cs => if c.utf8Size ≤ n then c :: utf8Truncate (n - c.utf8Size) cs else []

/-- The `sanitize-filename` package's `sanitize` with the default `''` replacement. -/
def sanitizeFilename (s : String) : String :=
  let s1 := s.data.filter (fun c => !(illegalFilenameChars.contains c))
  let s2 := s1.filter (fun c => !(isControlChar c))
  let s3 := if !s2.isEmpty && s2.all (fun c => c == '.') then [] else s2
  let s4 := if isWindowsReserved ⟨s3⟩ then [] else s3
  let s5 := (s4.reverse.dropWhile (fun c => c == '.' || c == ' ')).reverse
  ⟨utf8Truncate 255 s5⟩

/-! ### Data model (`src/types/GodotExport`, as used by the sources) -/

/-- One group of `export_presets.cfg`: name, platform and export path. -/
structure ExportPreset where
  name : String
  platform : String
  export_path : String
deriving DecidableEq, Repr

/-- The configuration toggles consumed by `doExport` (from the constants
module in `src/unnamed/part_000`): `USE_GODOT_4`, `EXPORT_DEBUG`,
`EXPORT_PACK_ONLY`, `GODOT_VERBOSE`. -/
structure ExportConfig where
  useGodot4 : Bool
  exportDebug : Bool
  exportPackOnly : Bool
  verbose : Bool
deriving DecidableEq, Repr

/-- `BuildResult` as produced by `doExport`; `archivePath` stays `none` until
the packager records it. -/
structure BuildResult where
  preset : ExportPreset
  sanitizedName : String
  executablePath : String
  directoryEntryCount : Nat
  directory : String
  archivePath : Option String
deriving DecidableEq, Repr

/-! ### Export-flag derivation (`doExport`, godot.ts lines 184-204) -/

/-- The export mode flag: Godot 4 uses `--export-release`/`--export-debug`;
Godot 3 uses `--export-pack` when pack-only, else `--export`/`--export-debug`. -/
def exportFlag (cfg : ExportConfig) : String :=
  if cfg.useGodot4 then
    if cfg.exportDebug then "--export-debug" else "--export-release"
  else
    if cfg.exportPackOnly then "--export-pack"
    else if cfg.exportDebug then "--export-debug" else "--export"

/-- The output path handed to the engine: `path.join(buildDir,
basename(preset.export_path))`, with `.pck` appended whenever
`EXPORT_PACK_ONLY` is set (godot.ts lines 176, 184-186). -/
def execPathFor (cfg : ExportConfig) (buildDir exportPath : String) : String :=
  let p := pathJoin buildDir (basename exportPath)
  if cfg.exportPackOnly then p ++ ".pck" else p

/-- The argument vector of one engine invocation:
`[projectFile, exportFlag, preset.name, executablePath]`, with `--headless`
spliced in at index 1 for Godot 4 and `--verbose` appended when requested
(godot.ts lines 200-204). -/
def exportArgs (cfg : ExportConfig) (projectFile presetName executablePath : String) :
    List String :=
  let args := [projectFile, exportFlag cfg, presetName, executablePath]
  let args2 := if cfg.useGodot4 then args.take 1 ++ "--headless" :: args.drop 1 else args
  if cfg.verbose then args2 ++ ["--verbose"] else args2

/-- The per-preset scratch directory `path.join(GODOT_BUILD_PATH,
sanitize(preset.name))` (godot.ts lines 171-172). -/
def buildDirFor (buildRoot name : String) : String := pathJoin buildRoot (sanitizeFilename name)

/-- The deterministic archive path `path.join(GODOT_ARCHIVE_PATH,
sanitizedName + ".zip")` (file.ts line 50). -/
def archiveZipFor (archiveRoot name : String) : String :=
  pathJoin archiveRoot (sanitizeFilename name ++ ".zip")

/-! ### ExportExecutor (`doExport`, godot.ts lines 166-222)

External effects are recorded as trace events; the exit status of an engine
invocation is supplied by an oracle `exitCode`, and `readdirSync` entry
counts by an oracle `entryCount`. -/

/-- Observable events of `doExport`: the skip warning, `io.mkdirP(buildDir)`,
and one `exec('godot', args)` per attempted export. -/
inductive ExportEv where
  | warnSkip (presetName : String)
  | mkdir (dir : String)
  | invoke (args : List String)
deriving DecidableEq, Repr

/-- The per-preset loop of `doExport`: empty `export_path` warns and
continues; a non-zero engine exit throws `'1 or more exports failed'`
(aborting the loop, so no artifact list is returned); on success a
`BuildResult` is appended. -/
def doExportGo (cfg : ExportConfig) (projectFile buildRoot : String)
    (exitCode : List String → Int) (entryCount : String → Nat) :
    List ExportPreset → List ExportEv × Except String (List BuildResult)
  | [] => ([], Except.ok [])
  | p :: ps =>
    let sanitizedName := sanitizeFilename p.name
    let buildDir := pathJoin buildRoot sanitizedName
    if p.export_path == "" then
      let rest := doExportGo cfg projectFile buildRoot exitCode entryCount ps
      (ExportEv.warnSkip p.name :: rest.1, rest.2)
    else
      let executablePath := execPathFor cfg buildDir p.export_path
      let args := exportArgs cfg projectFile p.name executablePath
      if exitCode args ≠ 0 then
        ([ExportEv.mkdir buildDir, ExportEv.invoke args],
         Except.error "1 or more exports failed")
      else
        let br : BuildResult :=
          ⟨p, sanitizedName, executablePath, entryCount buildDir, buildDir, none⟩
        let rest := doExportGo cfg projectFile buildRoot exitCode entryCount ps
        (ExportEv.mkdir buildDir :: ExportEv.invoke args :: rest.1,
         rest.2.map (fun l => br :: l))

/-! ### PresetCatalog (`getExportPresets`, godot.ts lines 258-279) -/

/-- `getExportPresets`: missing `export_presets.cfg` throws; a parsed file
whose ini decode has no `preset` group warns and yields the empty list.
`hasFile` models `hasExportPresets()`, `parsedGroups` the decoded
`presets?.preset` values in key order; the returned string list carries the
emitted warnings. -/
def getExportPresets (hasFile : Bool) (projectPath : String)
    (parsedGroups : Option (List ExportPreset)) :
    Except String (List ExportPreset × List String) :=
  if !hasFile then
    Except.error ("Could not find export_presets.cfg in " ++ projectPath)
  else
    match parsedGroups with
    | some groups => Except.ok (groups, [])
    | none => Except.ok ([], ["No presets found in export_presets.cfg at " ++ projectPath])

/-! ### Executable discovery (`findGodotExecutablePath`, godot.ts lines 240-256) -/

/-- A filesystem tree: regular files and directories with ordered entries. -/
inductive FSTree where
  | file (name : String)
  | dir (name : String) (children : List FSTree)

/-- The extension test of the first loop: `path.extname(fullPath)` equals
`.64` or `.x86_64`. -/
def godotBinaryExtAt (fullPath : String) : Bool :=
  extname fullPath == ".64" || extname fullPath == ".x86_64"

/-- The first loop of `findGodotExecutablePath`: return the first regular
file of the listing whose extension matches; every other entry (directory or
non-matching file alike) is pushed onto `dirs` in order. -/
def firstMatch (basePath : String) : List FSTree → Option String
  | [] => none
  | FSTree.file n :: rest =>
    let fullPath := pathJoin basePath n
    if godotBinaryExtAt fullPath then some fullPath else firstMatch basePath rest
  | FSTree.dir _ _ :: rest => firstMatch basePath rest

/-- Result of `findGodotExecutablePath`: a path, `undefined`, or the
exception `fs.readdirSync` raises when handed a regular file. -/
inductive FindOutcome where
  | found (p : String)
  | notFound
  | fsError
deriving DecidableEq, Repr

/-- `findGodotExecutablePath` (godot.ts lines 240-256). The first loop scans
all entries for a matching regular file; since matching files are never
pushed onto `dirs`, when that scan fails `dirs` holds every entry in order,
and the second loop `return`s on its very first iteration — so the function
recurses into the first entry only (`readdirSync` throwing when that entry
is a regular file) and returns `undefined` when the listing is empty. -/
def findGodotExecutablePath (basePath : String) (entries : List FSTree) : FindOutcome :=
  match firstMatch basePath entries with
  | some p => FindOutcome.found p
  | none =>
    match entries with
    | [] => FindOutcome.notFound
    | FSTree.file _ :: _ => FindOutcome.fsError
    | FSTree.dir n children :: _ => findGodotExecutablePath (pathJoin basePath n) children
termination_by sizeOf entries
decreasing_by simp_wf; omega

mutual
/-- Whether some descendant regular file of the tree (joined below
`basePath`) has a matching binary extension. -/
def hasGodotBinary (basePath : String) : FSTree → Bool
  | FSTree.file n => godotBinaryExtAt (pathJoin basePath n)
  | FSTree.dir n children => hasGodotBinaryIn (pathJoin basePath n) children
def hasGodotBinaryIn (basePath : String) : List FSTree → Bool
  | [] => false
  | t :: ts => hasGodotBinary basePath t || hasGodotBinaryIn basePath ts
end

/-- The locate step of `prepareExecutable` (godot.ts lines 103-106): extract
to `<working>/godot_executable`, search the tree, and throw
`'Could not find Godot executable'` when the search yields `undefined`;
a `readdirSync` exception propagates as-is. -/
def prepareExecutable (workingPath : String) (extractedTree : List FSTree) :
    Except String String :=
  let zipTo := pathJoin workingPath "godot_executable"
  match findGodotExecutablePath zipTo extractedTree with
  | FindOutcome.found p => Except.ok p
  | FindOutcome.notFound => Except.error "Could not find Godot executable"
  | FindOutcome.fsError => Except.error "ENOTDIR: not a directory"

/-! ### ArtifactPackager (`zipBuildResult` / `assembleSteamContentsFor`,
`src/unnamed/part_000` lines 67-122)

External commands are recorded as a trace; whether the deterministic archive
already exists is supplied by the predicate `zipExists` (`fs.existsSync`). -/

/-- One recorded external command of the packager / relocator. -/
inductive Cmd where
  | mkdirP (p : String)
  | unzip (src dst : String)
  | rm (p : String)
  | ls (p : String)
  | cp (src dst : String)
  | mv (src dst : String)
  | sevenZipAdd (archive input : String)
  | ioCp (src dst : String)
deriving DecidableEq, Repr

/-- The constants consumed by the packager. `GODOT_ARCHIVE_PATH` and
`STEAM_APPID_PATH` come from the constants module in `src/unnamed/part_000`.
Modelled from the spec: `DESKTOP_PLATFORMS` and `STEAM_SDK_TARGET_PATH` are
imported from `./constants` but that part of the module is not in `src/`;
the spec says desktop platforms carry a per-platform third-party SDK library
path, and `file.ts` compares `preset.platform.toLowerCase()` against the
macOS member, so they are kept as parameters here. -/
structure ZipEnv where
  godotArchivePath : String
  steamAppidPath : String
  steamSdkTargetPath : String → String
  desktopPlatforms : List String
  macOSPlatform : String
  archiveRootFolder : Bool

/-- The regex `'.app$'` of `export_path.match('.app$')`: the dot is an
unescaped any-character, so it matches any string whose last four characters
are `?app`. -/
def dotAppSuffix (s : String) : Bool :=
  strEndsWith s "app" && decide (4 ≤ s.data.length)

/-- `assembleSteamContentsFor` (part_000 lines 67-87). For macOS: unzip the
flat archive next to itself, delete it, list the `.app`, copy the appid file
and move the SDK library into `Contents/MacOS`, then run
`7z a <resolvedBuildDir> <buildDir>` — note the source passes the `.app`
directory as the archive name and the just-deleted archive as the input.
Other platforms: copy the appid file and move the SDK library into the
build directory. -/
def assembleSteamContentsFor (env : ZipEnv) (preset : ExportPreset) (buildDir : String) :
    List Cmd :=
  let libPath := env.steamSdkTargetPath preset.platform
  if preset.platform == env.macOSPlatform then
    let buildLocation := replaceFirst buildDir (basename preset.export_path) ""
    let resolvedBuildDir := replaceFirst buildDir ".zip" ".app"
    let macOSPath := pathJoin (pathJoin resolvedBuildDir "Contents") "MacOS"
    [Cmd.unzip buildDir buildLocation, Cmd.rm buildDir, Cmd.ls resolvedBuildDir,
     Cmd.cp env.steamAppidPath macOSPath, Cmd.mv libPath macOSPath,
     Cmd.sevenZipAdd resolvedBuildDir buildDir]
  else
    [Cmd.cp env.steamAppidPath buildDir, Cmd.mv libPath buildDir]

/-- `zipBuildResult` (part_000 lines 99-122). The macOS flat-archive branch
runs unconditionally; the `7z` compression branch is guarded by
`!fs.existsSync(zipPath)`; either way `archivePath` is set to the
deterministic `<GODOT_ARCHIVE_PATH>/<sanitizedName>.zip`. -/
def zipBuildResult (env : ZipEnv) (zipExists : String → Bool) (br : BuildResult) :
    List Cmd × BuildResult :=
  let zipPath := pathJoin env.godotArchivePath (br.sanitizedName ++ ".zip")
  let isMac := strToLower br.preset.platform == "mac osx"
  let endsInDotApp := dotAppSuffix br.preset.export_path
  let cmds :=
    if isMac && !endsInDotApp then
      let baseName := basename br.preset.export_path
      let macPath := pathJoin br.directory baseName
      assembleSteamContentsFor env br.preset macPath ++ [Cmd.ioCp macPath zipPath]
    else if !(zipExists zipPath) then
      (if env.desktopPlatforms.contains br.preset.platform then
        assembleSteamContentsFor env br.preset br.directory
      else [])
        ++ [Cmd.sevenZipAdd zipPath
              (br.directory ++ (if env.archiveRootFolder then "" else "/*"))]
    else []
  (Cmd.mkdirP env.godotArchivePath :: cmds, { br with archivePath := some zipPath })

/-! ### ArtifactRelocator (`moveBuildsToExportDirectory`, file.ts lines 67-101) -/

/-- Observable events of the relocator: `io.mkdirP(fullExportPath)`, the
skip warning, `io.cp` of an archive file, and the recursive `io.cp` of a
build directory. -/
inductive MoveEv where
  | mkdirP (p : String)
  | warnNotArchived
  | cpFile (src dst : String)
  | cpDir (src dst : String)
deriving DecidableEq, Repr

/-- The constants consumed by the relocator: `USE_PRESET_EXPORT_PATH`,
`GODOT_PROJECT_PATH`, `RELATIVE_EXPORT_PATH`. -/
structure MoveEnv where
  usePresetExportPath : Bool
  godotProjectPath : String
  relativeExportPath : String

/-- The destination directory of one artifact (file.ts lines 71-75). -/
def destFor (env : MoveEnv) (br : BuildResult) : String :=
  pathResolve
    (if env.usePresetExportPath then
      pathJoin env.godotProjectPath (dirname br.preset.export_path)
    else env.relativeExportPath)

/-- One iteration of the relocation loop. `io.mkdirP(fullExportPath)` runs
before the `archivePath` check; a missing `archivePath` in archived mode
warns and `continue`s, leaving the artifact unchanged; otherwise the archive
(or, in raw mode, the whole directory) is copied and the artifact's paths
are updated. -/
def moveStep (env : MoveEnv) (moveArchived : Bool) (br : BuildResult) :
    List MoveEv × BuildResult :=
  let fullExportPath := destFor env br
  if moveArchived then
    match br.archivePath with
    | none => ([MoveEv.mkdirP fullExportPath, MoveEv.warnNotArchived], br)
    | some ap =>
      let newArchivePath := pathJoin fullExportPath (basename ap)
      ([MoveEv.mkdirP fullExportPath, MoveEv.cpFile ap newArchivePath],
       { br with archivePath := some newArchivePath })
  else
    let newDirectory := pathJoin fullExportPath (basename br.directory)
    ([MoveEv.mkdirP fullExportPath, MoveEv.cpDir br.directory fullExportPath],
     { br with
        directory := newDirectory,
        executablePath := pathJoin newDirectory (basename br.executablePath) })

/-- `moveBuildsToExportDirectory`: the loop body per artifact, with the
copy promises joined at the end. -/
def moveBuildsToExportDirectory (env : MoveEnv) (moveArchived : Bool)
    (brs : List BuildResult) : List MoveEv × List BuildResult :=
  ((brs.map (fun br => (moveStep env moveArchived br).1)).flatten,
   brs.map (fun br => (moveStep env moveArchived br).2))

/-! ### Editor settings (`addEditorSettings`, godot.ts lines 281-288) -/

/-- A file store: paths to contents (directory creation by `io.mkdirP` has
no observable effect on the file map). -/
abbrev FileStore := List (String × String)

def fsGet (fs : FileStore) (p : String) : Option String :=
  (fs.find? (fun e => e.1 == p)).map (fun e => e.2)

def fsSet (fs : FileStore) (p c : String) : FileStore := (p, c) :: fs

/-- `io.cp(src, dst, { force: false })`: an existing destination is left
untouched; otherwise the source contents are copied (a missing source is an
error). -/
def cpForceFalse (src dst : String) (fs : FileStore) : Except String FileStore :=
  if (fsGet fs dst).isSome then Except.ok fs
  else
    match fsGet fs src with
    | some contents => Except.ok (fsSet fs dst contents)
    | none => Except.error "source file does not exist"

/-- `EDITOR_SETTINGS_FILENAME` (godot.ts line 28). -/
def editorSettingsFilename (useGodot4 : Bool) : String :=
  if useGodot4 then "editor_settings-4.tres" else "editor_settings-3.tres"

/-- `addEditorSettings`: copy the bundled template
`<distDir>/<EDITOR_SETTINGS_FILENAME>` to
`<GODOT_CONFIG_PATH>/<EDITOR_SETTINGS_FILENAME>` with `force: false`. -/
def addEditorSettings (useGodot4 : Bool) (distDir godotConfigPath : String)
    (fs : FileStore) : Except String FileStore :=
  let fname := editorSettingsFilename useGodot4
  cpForceFalse (pathJoin distDir fname) (pathJoin godotConfigPath fname) fs

/-! ### Concrete instances used by counterexamples and witnesses -/

/-- A concrete packager environment. `GODOT_ARCHIVE_PATH` is abbreviated
`"ARCH"`; the SDK table and platform names instantiate the spec-modelled
`ZipEnv` parameters (macOS named `"Mac OSX"`, consistent with the source's
`platform.toLowerCase() === 'mac osx'` test). -/
def demoZipEnv : ZipEnv :=
  ⟨"ARCH", "proj/steam_appid.txt", fun _ => "sdk/libsteam_api.dylib",
   ["Windows Desktop", "Mac OSX", "Linux/X11"], "Mac OSX", false⟩

/-- A macOS preset whose export path is a flat `.zip`, not a `.app` bundle. -/
def macPresetDemo : ExportPreset := ⟨"Mac", "Mac OSX", "builds/game.zip"⟩

/-- The artifact of `macPresetDemo` after a first packaging run (its archive
already exists at `ARCH/Mac.zip`). -/
def brMacDemo : BuildResult :=
  ⟨macPresetDemo, "Mac", "B/Mac/game.zip", 1, "B/Mac", some "ARCH/Mac.zip"⟩

/-- The artifact of `macPresetDemo` before any packaging run. -/
def brMacFresh : BuildResult :=
  ⟨macPresetDemo, "Mac", "B/Mac/game.zip", 1, "B/Mac", none⟩

/-- A non-macOS artifact whose archive already exists. -/
def brWinDemo : BuildResult :=
  ⟨⟨"Win", "Windows Desktop", "builds/game.exe"⟩, "Win", "B/Win/game.exe", 1, "B/Win", none⟩

/-- A relocation environment: fixed output directory `"exports"`. -/
def demoMoveEnv : MoveEnv := ⟨false, "proj", "exports"⟩

/-- An artifact that was never archived (`archivePath` absent). -/
def brNoArchiveDemo : BuildResult :=
  ⟨⟨"Win", "Windows Desktop", "builds/game.exe"⟩, "Win", "B/Win/game.exe", 1, "B/Win", none⟩

/-- An archived artifact sharing the batch with `brNoArchiveDemo`. -/
def brArchivedDemo : BuildResult :=
  ⟨⟨"Lin", "Linux/X11", "builds/game.x86_64"⟩, "Lin", "B/Lin/game.x86_64", 1, "B/Lin",
   some "ARCH/Lin.zip"⟩

/-! ### Helper lemmas -/

/-- Left cancellation of string append. -/
theorem stringAppend_left_cancel {a b c : String} (h : a ++ b = a ++ c) : b = c := by
  have h2 : (a ++ b).data = (a ++ c).data := by rw [h]
  simp only [String.data_append] at h2
  exact String.ext (List.append_cancel_left h2)

/-- Right cancellation of string append. -/
theorem stringAppend_right_cancel {a b c : String} (h : a ++ c = b ++ c) : a = b := by
  have h2 : (a ++ c).data = (b ++ c).data := by rw [h]
  simp only [String.data_append] at h2
  exact String.ext (List.append_cancel_right h2)

/-- `pathJoin` is injective in its second argument. -/
theorem pathJoin_right_inj {a b c : String} (h : pathJoin a b = pathJoin a c) : b = c :=
  stringAppend_left_cancel h

/-! ### C1 -/

/-- C1 counterexample: the claim says `.pck` is appended to the output
filename only when the current (Godot 4) major version is selected; but with
the legacy version selected and pack-only requested the derived output path
ends in `.pck` all the same (godot.ts lines 184-186 append it regardless of
`USE_GODOT_4`). -/
theorem C1_pck_counterexample :
    execPathFor ⟨false, false, true, false⟩ "bd" "game.exe" = "bd/game.exe.pck" ∧
    (⟨false, false, true, false⟩ : ExportConfig).useGodot4 = false := by
  exact ⟨by decide, rfl⟩

/-- C1 (amended): the export invocation matrix. Legacy (Godot 3) uses
`--export` / `--export-debug` / `--export-pack`; current (Godot 4) uses
`--export-release` / `--export-debug` with `--headless` inserted after the
project file; args are `[projectFile, modeFlag, presetName, outputPath]`
with `--verbose` appended when requested; and the `.pck` suffix is appended
to the output filename exactly when pack-only is requested, for either
major version. -/
theorem C1_export_invocation_table (pf pn bd ep out : String) :
    exportArgs ⟨false, false, false, false⟩ pf pn out = [pf, "--export", pn, out] ∧
    exportArgs ⟨false, true, false, false⟩ pf pn out = [pf, "--export-debug", pn, out] ∧
    exportArgs ⟨false, false, true, false⟩ pf pn out = [pf, "--export-pack", pn, out] ∧
    exportArgs ⟨false, true, true, false⟩ pf pn out = [pf, "--export-pack", pn, out] ∧
    exportArgs ⟨true, false, false, false⟩ pf pn out =
      [pf, "--headless", "--export-release", pn, out] ∧
    exportArgs ⟨true, true, false, false⟩ pf pn out =
      [pf, "--headless", "--export-debug", pn, out] ∧
    exportArgs ⟨true, false, true, false⟩ pf pn out =
      [pf, "--headless", "--export-release", pn, out] ∧
    exportArgs ⟨true, true, true, false⟩ pf pn out =
      [pf, "--headless", "--export-debug", pn, out] ∧
    (∀ u d p : Bool, exportArgs ⟨u, d, p, true⟩ pf pn out =
      exportArgs ⟨u, d, p, false⟩ pf pn out ++ ["--verbose"]) ∧
    (∀ u d v : Bool, execPathFor ⟨u, d, true, v⟩ bd ep =
      pathJoin bd (basename ep) ++ ".pck") ∧
    (∀ u d v : Bool, execPathFor ⟨u, d, false, v⟩ bd ep = pathJoin bd (basename ep)) := by
  refine ⟨rfl, rfl, rfl, rfl, rfl, rfl, rfl, rfl, ?_, ?_, ?_⟩
  · intro u d p
    cases u <;> cases d <;> cases p <;> rfl
  · intro u d v
    rfl
  · intro u d v
    rfl

/-! ### C8 -/

/-- C8 counterexample: the distinct preset names `"a/b"` and `"ab"` collapse
to the same sanitized name, so their scratch build directories and archive
paths coincide. -/
theorem C8_sanitize_collision :
    sanitizeFilename "a/b" = "ab" ∧ sanitizeFilename "ab" = "ab" ∧
    ("a/b" : String) ≠ "ab" ∧
    buildDirFor "builds" "a/b" = buildDirFor "builds" "ab" ∧
    archiveZipFor "archives" "a/b" = archiveZipFor "archives" "ab" := by
  exact ⟨by decide, by decide, by decide, by decide, by decide⟩

/-- C8 (amended): sanitization can collapse distinct preset names, so path
uniqueness holds exactly for presets whose *sanitized* names differ: whenever
two names sanitize differently, their derived scratch directories and archive
paths are distinct. -/
theorem C8_distinct_sanitized_distinct_paths (broot aroot n1 n2 : String)
    (h : sanitizeFilename n1 ≠ sanitizeFilename n2) :
    buildDirFor broot n1 ≠ buildDirFor broot n2 ∧
    archiveZipFor aroot n1 ≠ archiveZipFor aroot n2 := by
  constructor
  · intro he
    exact h (pathJoin_right_inj he)
  · intro he
    exact h (stringAppend_right_cancel (pathJoin_right_inj he))

/-- C8 witness: instantiation at names `"a"` and `"b"`. -/
theorem C8_distinct_sanitized_distinct_paths_witness :
    sanitizeFilename "a" ≠ sanitizeFilename "b" ∧
    (buildDirFor "builds" "a" ≠ buildDirFor "builds" "b" ∧
     archiveZipFor "archives" "a" ≠ archiveZipFor "archives" "b") :=
  ⟨by decide, C8_distinct_sanitized_distinct_paths "builds" "archives" "a" "b" (by decide)⟩

/-! ### C10 -/

/-- C10: a present, parseable preset file with no preset groups does not
raise: `getExportPresets` warns and returns the empty list, and `doExport`
over an empty preset list completes with zero build artifacts. -/
theorem C10_no_presets_warns_empty (projectPath pf buildRoot : String)
    (cfg : ExportConfig) (exitCode : List String → Int) (entryCount : String → Nat) :
    getExportPresets true projectPath none =
      Except.ok ([], ["No presets found in export_presets.cfg at " ++ projectPath]) ∧
    doExportGo cfg pf buildRoot exitCode entryCount [] = ([], Except.ok []) :=
  ⟨rfl, rfl⟩

/-! ### C2 -/

/-- Unfolding: an empty listing yields `undefined`. -/
theorem findGodot_eq_nil (base : String) :
    findGodotExecutablePath base [] = FindOutcome.notFound := by
  rw [findGodotExecutablePath.eq_1]
  rfl

/-- Unfolding: when the level scan finds no matching file, the search
recurses into the first entry's children (and only there). -/
theorem findGodot_eq_cons_dir (base nm : String) (cs rest : List FSTree)
    (h : firstMatch base (FSTree.dir nm cs :: rest) = none) :
    findGodotExecutablePath base (FSTree.dir nm cs :: rest) =
      findGodotExecutablePath (pathJoin base nm) cs := by
  rw [findGodotExecutablePath.eq_3, h]

/-- Unfolding: when the level scan finds a matching file, it is returned. -/
theorem findGodot_eq_found (base : String) (entries : List FSTree) (p : String)
    (h : firstMatch base entries = some p) :
    findGodotExecutablePath base entries = FindOutcome.found p := by
  cases entries with
  | nil => rw [findGodotExecutablePath.eq_1, h]
  | cons t rest =>
    cases t with
    | file n => rw [findGodotExecutablePath.eq_2, h]
    | dir n cs => rw [findGodotExecutablePath.eq_3, h]

/-- A toolchain tree whose real executable sits three directories deep, with
a decoy directory listed *before* the chain that leads to it. -/
def decoyFirstTree : List FSTree :=
  [FSTree.dir "decoy" [],
   FSTree.dir "a" [FSTree.dir "b" [FSTree.dir "c" [FSTree.file "godot.x86_64"]]]]

/-- The same executable three directories deep along the first-entry chain,
with several decoy directories and files listed *after* it at each level. -/
def chainFirstTree : List FSTree :=
  [FSTree.dir "a"
     [FSTree.dir "b"
        [FSTree.dir "c" [FSTree.file "godot.x86_64", FSTree.file "license.txt"],
         FSTree.dir "d2" []],
      FSTree.dir "d1" []],
   FSTree.dir "d0" [],
   FSTree.file "readme.md"]

/-- C2 (code bug): the second loop of `findGodotExecutablePath` returns
unconditionally on its first iteration, so the search never backtracks into
sibling directories. With the executable three directories deep but a decoy
directory listed first, the search yields `undefined` and provisioning fails
— although the binary is present (`hasGodotBinaryIn` is true, and the very
same tree with the decoy listed after the chain is found). -/
theorem C2_decoy_first_not_found :
    findGodotExecutablePath "root" decoyFirstTree = FindOutcome.notFound ∧
    hasGodotBinaryIn "root" decoyFirstTree = true ∧
    prepareExecutable "work" decoyFirstTree =
      Except.error "Could not find Godot executable" ∧
    findGodotExecutablePath "root" chainFirstTree =
      FindOutcome.found "root/a/b/c/godot.x86_64" := by
  have hroot : findGodotExecutablePath "root" decoyFirstTree = FindOutcome.notFound := by
    have s1 := findGodot_eq_cons_dir "root" "decoy" []
      [FSTree.dir "a" [FSTree.dir "b" [FSTree.dir "c" [FSTree.file "godot.x86_64"]]]]
      (by decide)
    rw [show findGodotExecutablePath "root" decoyFirstTree =
          findGodotExecutablePath "root"
            (FSTree.dir "decoy" [] ::
              [FSTree.dir "a" [FSTree.dir "b" [FSTree.dir "c" [FSTree.file "godot.x86_64"]]]])
        from rfl, s1, findGodot_eq_nil]
  have hwork : findGodotExecutablePath (pathJoin "work" "godot_executable") decoyFirstTree =
      FindOutcome.notFound := by
    have s1 := findGodot_eq_cons_dir (pathJoin "work" "godot_executable") "decoy" []
      [FSTree.dir "a" [FSTree.dir "b" [FSTree.dir "c" [FSTree.file "godot.x86_64"]]]]
      (by decide)
    rw [show findGodotExecutablePath (pathJoin "work" "godot_executable") decoyFirstTree =
          findGodotExecutablePath (pathJoin "work" "godot_executable")
            (FSTree.dir "decoy" [] ::
              [FSTree.dir "a" [FSTree.dir "b" [FSTree.dir "c" [FSTree.file "godot.x86_64"]]]])
        from rfl, s1, findGodot_eq_nil]
  have hchain : findGodotExecutablePath "root" chainFirstTree =
      FindOutcome.found "root/a/b/c/godot.x86_64" := by
    have s1 := findGodot_eq_cons_dir "root" "a"
      [FSTree.dir "b"
         [FSTree.dir "c" [FSTree.file "godot.x86_64", FSTree.file "license.txt"],
          FSTree.dir "d2" []],
       FSTree.dir "d1" []]
      [FSTree.dir "d0" [], FSTree.file "readme.md"] (by decide)
    have s2 := findGodot_eq_cons_dir "root/a" "b"
      [FSTree.dir "c" [FSTree.file "godot.x86_64", FSTree.file "license.txt"],
       FSTree.dir "d2" []]
      [FSTree.dir "d1" []] (by decide)
    have s3 := findGodot_eq_cons_dir "root/a/b" "c"
      [FSTree.file "godot.x86_64", FSTree.file "license.txt"]
      [FSTree.dir "d2" []] (by decide)
    have s4 := findGodot_eq_found "root/a/b/c"
      [FSTree.file "godot.x86_64", FSTree.file "license.txt"]
      "root/a/b/c/godot.x86_64" (by decide)
    exact s1.trans (s2.trans (s3.trans s4))
  refine ⟨hroot, by decide, ?_, hchain⟩
  simp only [prepareExecutable, hwork]

/-! ### C3 -/

/-- C3 counterexample: a macOS artifact with a flat (non-`.app`) export path
whose deterministic archive already exists (`zipExists` is constantly true,
modelling the second run). The existence check is bypassed by the macOS
flat-archive branch, so the second run re-executes the whole assembly —
including a `7z` archiver invocation — and a copy to the archive path: it is
not a no-op. -/
theorem C3_second_run_not_noop :
    (zipBuildResult demoZipEnv (fun _ => true) brMacDemo).1 =
      [Cmd.mkdirP "ARCH",
       Cmd.unzip "B/Mac/game.zip" "B/Mac/",
       Cmd.rm "B/Mac/game.zip",
       Cmd.ls "B/Mac/game.app",
       Cmd.cp "proj/steam_appid.txt" "B/Mac/game.app/Contents/MacOS",
       Cmd.mv "sdk/libsteam_api.dylib" "B/Mac/game.app/Contents/MacOS",
       Cmd.sevenZipAdd "B/Mac/game.app" "B/Mac/game.zip",
       Cmd.ioCp "B/Mac/game.zip" "ARCH/Mac.zip"] ∧
    Cmd.sevenZipAdd "B/Mac/game.app" "B/Mac/game.zip" ∈
      (zipBuildResult demoZipEnv (fun _ => true) brMacDemo).1 := by
  exact ⟨by decide, by decide⟩

/-- C3 (amended): for every artifact *outside* the macOS flat-archive
special case, packaging is idempotent: when the deterministic archive path
already exists the run performs only the idempotent archive-directory
creation — no SDK assembly and no archiver invocation — and records the same
deterministic archive path; and the recorded `archivePath` is the same
deterministic path on every run. -/
theorem C3_idempotent_unless_mac_flat (env : ZipEnv) (zipExists : String → Bool)
    (br : BuildResult)
    (hcase : (strToLower br.preset.platform == "mac osx" &&
      !dotAppSuffix br.preset.export_path) = false)
    (hex : zipExists (pathJoin env.godotArchivePath (br.sanitizedName ++ ".zip")) = true) :
    (zipBuildResult env zipExists br).1 = [Cmd.mkdirP env.godotArchivePath] ∧
    (zipBuildResult env zipExists br).2 =
      { br with
        archivePath := some (pathJoin env.godotArchivePath (br.sanitizedName ++ ".zip")) } ∧
    (∀ zipExists2 : String → Bool, ((zipBuildResult env zipExists2 br).2).archivePath =
      some (pathJoin env.godotArchivePath (br.sanitizedName ++ ".zip"))) := by
  refine ⟨?_, ?_, ?_⟩
  · simp [zipBuildResult, hcase, hex]
  · simp [zipBuildResult]
  · intro zipExists2
    simp [zipBuildResult]

/-- C3 witness: a Windows artifact whose archive already exists. -/
theorem C3_idempotent_unless_mac_flat_witness :
    (strToLower brWinDemo.preset.platform == "mac osx" &&
      !dotAppSuffix brWinDemo.preset.export_path) = false ∧
    ((fun _ => true) (pathJoin "ARCH" ("Win" ++ ".zip")) = true) ∧
    (zipBuildResult demoZipEnv (fun _ => true) brWinDemo).1 = [Cmd.mkdirP "ARCH"] ∧
    (zipBuildResult demoZipEnv (fun _ => true) brWinDemo).2 =
      { brWinDemo with archivePath := some "ARCH/Win.zip" } :=
  ⟨by decide, rfl,
   (C3_idempotent_unless_mac_flat demoZipEnv (fun _ => true) brWinDemo (by decide) rfl).1,
   (C3_idempotent_unless_mac_flat demoZipEnv (fun _ => true) brWinDemo (by decide) rfl).2.1⟩

/-! ### C4 -/

/-- C4 (code bug): the macOS flat-archive flow at the concrete artifact. The
trace shows the original archive `B/Mac/game.zip` is deleted (`rm`) and then
used *afterwards* both as the `7z` input and as the source of the final copy;
moreover the `7z a` arguments are swapped — the `.app` directory
`B/Mac/game.app` is passed as the archive name and the deleted archive as
the input — so the bundle is never re-compressed into the original archive
filename and the deterministic archive path cannot receive a valid archive
containing the bundle. -/
theorem C4_mac_bundle_commands :
    (zipBuildResult demoZipEnv (fun _ => false) brMacFresh).1 =
      [Cmd.mkdirP "ARCH",
       Cmd.unzip "B/Mac/game.zip" "B/Mac/",
       Cmd.rm "B/Mac/game.zip",
       Cmd.ls "B/Mac/game.app",
       Cmd.cp "proj/steam_appid.txt" "B/Mac/game.app/Contents/MacOS",
       Cmd.mv "sdk/libsteam_api.dylib" "B/Mac/game.app/Contents/MacOS",
       Cmd.sevenZipAdd "B/Mac/game.app" "B/Mac/game.zip",
       Cmd.ioCp "B/Mac/game.zip" "ARCH/Mac.zip"] ∧
    ((zipBuildResult demoZipEnv (fun _ => false) brMacFresh).2).archivePath =
      some "ARCH/Mac.zip" := by
  exact ⟨by decide, by decide⟩

/-! ### C5 -/

/-- C5 counterexample: a batch holding only an artifact without
`archivePath`, relocated in archived mode. The artifact is skipped with a
warning and left unchanged — but `io.mkdirP(fullExportPath)` runs *before*
the `archivePath` check, so the artifact's destination directory is still
targeted by a creation command: the destination is not left untouched when
it does not yet exist. -/
theorem C5_mkdir_touches_destination :
    (moveBuildsToExportDirectory demoMoveEnv true [brNoArchiveDemo]).1 =
      [MoveEv.mkdirP "exports", MoveEv.warnNotArchived] ∧
    MoveEv.mkdirP "exports" ∈
      (moveBuildsToExportDirectory demoMoveEnv true [brNoArchiveDemo]).1 ∧
    destFor demoMoveEnv brNoArchiveDemo = "exports" ∧
    (moveBuildsToExportDirectory demoMoveEnv true [brNoArchiveDemo]).2 =
      [brNoArchiveDemo] := by
  exact ⟨by decide, by decide, by decide, by decide⟩

/-- C5 (amended): in archived mode an artifact lacking `archivePath` is
skipped with a warning only — no file is copied for it and it passes through
unchanged (though its destination directory is still created if absent) —
while every artifact of the batch that has an `archivePath` is still
relocated: its archive-copy command appears in the trace and its updated
descriptor appears in the results. -/
theorem C5_skip_warn_others_relocated (env : MoveEnv) (brs : List BuildResult)
    (br : BuildResult) (hmem : br ∈ brs) (hnone : br.archivePath = none) :
    moveStep env true br =
      ([MoveEv.mkdirP (destFor env br), MoveEv.warnNotArchived], br) ∧
    br ∈ (moveBuildsToExportDirectory env true brs).2 ∧
    (∀ br2 ∈ brs, ∀ ap, br2.archivePath = some ap →
      MoveEv.cpFile ap (pathJoin (destFor env br2) (basename ap)) ∈
        (moveBuildsToExportDirectory env true brs).1 ∧
      { br2 with archivePath := some (pathJoin (destFor env br2) (basename ap)) } ∈
        (moveBuildsToExportDirectory env true brs).2) := by
  have hstep : moveStep env true br =
      ([MoveEv.mkdirP (destFor env br), MoveEv.warnNotArchived], br) := by
    simp [moveStep, hnone]
  refine ⟨hstep, ?_, ?_⟩
  · have : (moveStep env true br).2 = br := by rw [hstep]
    exact this ▸ List.mem_map_of_mem (fun b => (moveStep env true b).2) hmem
  · intro br2 h2 ap hap
    have hstep2 : moveStep env true br2 =
        ([MoveEv.mkdirP (destFor env br2),
          MoveEv.cpFile ap (pathJoin (destFor env br2) (basename ap))],
         { br2 with archivePath := some (pathJoin (destFor env br2) (basename ap)) }) := by
      simp [moveStep, hap]
    constructor
    · refine List.mem_flatten.mpr ⟨(moveStep env true br2).1, ?_, ?_⟩
      · exact List.mem_map_of_mem (fun b => (moveStep env true b).1) h2
      · rw [hstep2]
        simp
    · have : (moveStep env true br2).2 =
          { br2 with archivePath := some (pathJoin (destFor env br2) (basename ap)) } := by
        rw [hstep2]
      exact this ▸ List.mem_map_of_mem (fun b => (moveStep env true b).2) h2

/-- C5 witness: the two-artifact batch `[brNoArchiveDemo, brArchivedDemo]`. -/
theorem C5_skip_warn_others_relocated_witness :
    brNoArchiveDemo ∈ [brNoArchiveDemo, brArchivedDemo] ∧
    brNoArchiveDemo.archivePath = none ∧
    moveStep demoMoveEnv true brNoArchiveDemo =
      ([MoveEv.mkdirP "exports", MoveEv.warnNotArchived], brNoArchiveDemo) ∧
    MoveEv.cpFile "ARCH/Lin.zip" "exports/Lin.zip" ∈
      (moveBuildsToExportDirectory demoMoveEnv true [brNoArchiveDemo, brArchivedDemo]).1 :=
  ⟨by decide, rfl,
   (C5_skip_warn_others_relocated demoMoveEnv [brNoArchiveDemo, brArchivedDemo]
     brNoArchiveDemo (by decide) rfl).1,
   ((C5_skip_warn_others_relocated demoMoveEnv [brNoArchiveDemo, brArchivedDemo]
     brNoArchiveDemo (by decide) rfl).2.2 brArchivedDemo (by decide) "ARCH/Lin.zip" rfl).1⟩

/-! ### C6 -/

/-- C6: if any engine invocation of the run exits non-zero, `doExport`
raises the fatal `'1 or more exports failed'` error, no artifact list is
returned to the caller, and the trace ends at a failing invocation — no
later preset is exported. -/
theorem C6_nonzero_exit_aborts (cfg : ExportConfig) (pf buildRoot : String)
    (exitCode : List String → Int) (entryCount : String → Nat) (ps : List ExportPreset)
    (h : ∃ a, ExportEv.invoke a ∈ (doExportGo cfg pf buildRoot exitCode entryCount ps).1 ∧
      exitCode a ≠ 0) :
    (doExportGo cfg pf buildRoot exitCode entryCount ps).2 =
      Except.error "1 or more exports failed" ∧
    (∀ l, (doExportGo cfg pf buildRoot exitCode entryCount ps).2 ≠ Except.ok l) ∧
    (∃ tr a, (doExportGo cfg pf buildRoot exitCode entryCount ps).1 =
      tr ++ [ExportEv.invoke a] ∧ exitCode a ≠ 0) := by
  induction ps with
  | nil => simp [doExportGo] at h
  | cons p ps ih =>
    cases hp : (p.export_path == "") with
    | true =>
      simp only [doExportGo, hp, if_true] at h ⊢
      simp only [List.mem_cons, reduceCtorEq, false_or] at h
      refine ⟨(ih h).1, (ih h).2.1, ?_⟩
      obtain ⟨tr, a, htr, ha⟩ := (ih h).2.2
      exact ⟨ExportEv.warnSkip p.name :: tr, a, by rw [htr]; rfl, ha⟩
    | false =>
      simp only [doExportGo, hp, Bool.false_eq_true, if_false] at h ⊢
      by_cases he : exitCode (exportArgs cfg pf p.name
          (execPathFor cfg (pathJoin buildRoot (sanitizeFilename p.name)) p.export_path)) = 0
      · rw [if_neg (not_not_intro he)] at h ⊢
        obtain ⟨a, ha, hexit⟩ := h
        simp only [List.mem_cons, reduceCtorEq, false_or, ExportEv.invoke.injEq] at ha
        rcases ha with rfl | ha
        · exact absurd he hexit
        · refine ⟨?_, ?_, ?_⟩
          · rw [(ih ⟨a, ha, hexit⟩).1]
            rfl
          · intro l
            rw [(ih ⟨a, ha, hexit⟩).1]
            simp [Except.map]
          · obtain ⟨tr, b, htr, hb⟩ := (ih ⟨a, ha, hexit⟩).2.2
            refine ⟨ExportEv.mkdir (pathJoin buildRoot (sanitizeFilename p.name)) ::
              ExportEv.invoke (exportArgs cfg pf p.name
                (execPathFor cfg (pathJoin buildRoot (sanitizeFilename p.name))
                  p.export_path)) :: tr, b, ?_, hb⟩
            rw [htr]
            rfl
      · rw [if_pos he] at h ⊢
        refine ⟨rfl, by simp, ?_⟩
        exact ⟨[ExportEv.mkdir (pathJoin buildRoot (sanitizeFilename p.name))],
          exportArgs cfg pf p.name
            (execPathFor cfg (pathJoin buildRoot (sanitizeFilename p.name)) p.export_path),
          rfl, he⟩

/-- C6 witness: one preset whose invocation exits with status 1. -/
theorem C6_nonzero_exit_aborts_witness :
    (∃ a, ExportEv.invoke a ∈
        (doExportGo ⟨false, false, false, false⟩ "p.godot" "b" (fun _ => 1) (fun _ => 0)
          [⟨"Win", "Windows Desktop", "builds/game.exe"⟩]).1 ∧ (fun _ => (1 : Int)) a ≠ 0) ∧
    (doExportGo ⟨false, false, false, false⟩ "p.godot" "b" (fun _ => 1) (fun _ => 0)
        [⟨"Win", "Windows Desktop", "builds/game.exe"⟩]).2 =
      Except.error "1 or more exports failed" :=
  ⟨⟨["p.godot", "--export", "Win", "b/Win/game.exe"], by decide, by decide⟩,
   (C6_nonzero_exit_aborts ⟨false, false, false, false⟩ "p.godot" "b" (fun _ => 1)
     (fun _ => 0) [⟨"Win", "Windows Desktop", "builds/game.exe"⟩]
     ⟨["p.godot", "--export", "Win", "b/Win/game.exe"], by decide, by decide⟩).1⟩

/-! ### C7 -/

/-- C7: a preset with an empty export path is skipped with a warning and no
`BuildArtifact`: the run on `p :: ps` emits the warning and then behaves
exactly as the run on `ps` — both the remaining trace and the artifact list
are unchanged, so the skipped preset never reaches packaging or relocation. -/
theorem C7_empty_export_path_skipped (cfg : ExportConfig) (pf buildRoot : String)
    (exitCode : List String → Int) (entryCount : String → Nat)
    (p : ExportPreset) (ps : List ExportPreset) (h : p.export_path = "") :
    (doExportGo cfg pf buildRoot exitCode entryCount (p :: ps)).1 =
      ExportEv.warnSkip p.name :: (doExportGo cfg pf buildRoot exitCode entryCount ps).1 ∧
    (doExportGo cfg pf buildRoot exitCode entryCount (p :: ps)).2 =
      (doExportGo cfg pf buildRoot exitCode entryCount ps).2 := by
  constructor <;> simp [doExportGo, h]

/-- A preset without an export path. -/
def skipPresetDemo : ExportPreset := ⟨"skipme", "Windows Desktop", ""⟩

/-- C7 witness: the skip preset alone. -/
theorem C7_empty_export_path_skipped_witness :
    skipPresetDemo.export_path = "" ∧
    ((doExportGo ⟨false, false, false, false⟩ "p.godot" "b" (fun _ => 0) (fun _ => 0)
        [skipPresetDemo]).1 =
      ExportEv.warnSkip skipPresetDemo.name ::
        (doExportGo ⟨false, false, false, false⟩ "p.godot" "b" (fun _ => 0)
          (fun _ => 0) []).1 ∧
     (doExportGo ⟨false, false, false, false⟩ "p.godot" "b" (fun _ => 0) (fun _ => 0)
        [skipPresetDemo]).2 =
      (doExportGo ⟨false, false, false, false⟩ "p.godot" "b" (fun _ => 0)
        (fun _ => 0) []).2) :=
  ⟨rfl, C7_empty_export_path_skipped ⟨false, false, false, false⟩ "p.godot" "b"
    (fun _ => 0) (fun _ => 0) skipPresetDemo [] rfl⟩

/-! ### C9 -/

/-- A freshly written file is found by `fsGet`. -/
theorem fsGet_fsSet_self (fs : FileStore) (p c : String) :
    fsGet (fsSet fs p c) p = some c := by
  simp [fsGet, fsSet]

/-- C9: `addEditorSettings` never overwrites an existing settings file — if
the target exists the store is returned unchanged — and the operation is
idempotent: a successful run followed by a second run leaves the store of
the first run intact. -/
theorem C9_editor_settings_no_overwrite (u : Bool) (distDir cfgPath : String)
    (fs : FileStore) :
    (∀ c, fsGet fs (pathJoin cfgPath (editorSettingsFilename u)) = some c →
      addEditorSettings u distDir cfgPath fs = Except.ok fs) ∧
    (∀ fs2, addEditorSettings u distDir cfgPath fs = Except.ok fs2 →
      addEditorSettings u distDir cfgPath fs2 = Except.ok fs2) := by
  constructor
  · intro c hc
    simp [addEditorSettings, cpForceFalse, hc]
  · intro fs2 h
    simp only [addEditorSettings, cpForceFalse] at h ⊢
    by_cases hd : (fsGet fs (pathJoin cfgPath (editorSettingsFilename u))).isSome
    · rw [if_pos hd] at h
      obtain rfl : fs = fs2 := by
        cases h
        rfl
      rw [if_pos hd]
    · rw [if_neg hd] at h
      cases hsrc : fsGet fs (pathJoin distDir (editorSettingsFilename u)) with
      | none =>
        rw [hsrc] at h
        cases h
      | some contents =>
        rw [hsrc] at h
        obtain rfl : fsSet fs (pathJoin cfgPath (editorSettingsFilename u)) contents = fs2 := by
          cases h
          rfl
        rw [if_pos (by rw [fsGet_fsSet_self]; rfl)]

/-- A store where both the bundled template and an existing user settings
file are present. -/
def demoFileStore : FileStore :=
  [("cfg/editor_settings-3.tres", "old"), ("dist/editor_settings-3.tres", "template")]

/-- C9 witness: with the settings file already present, both parts apply —
the store is unchanged and the re-run is a no-op. -/
theorem C9_editor_settings_no_overwrite_witness :
    fsGet demoFileStore "cfg/editor_settings-3.tres" = some "old" ∧
    addEditorSettings false "dist" "cfg" demoFileStore = Except.ok demoFileStore :=
  ⟨by decide,
   (C9_editor_settings_no_overwrite false "dist" "cfg" demoFileStore).2 demoFileStore
     ((C9_editor_settings_no_overwrite false "dist" "cfg" demoFileStore).1 "old" (by decide))⟩
